import Mathlib

/-!
# Verification of the go-transaction-api transfer core

Shallow embedding of `src/handlers/transaction.go` (and the later revision in
`src/unnamed/part_003`, namespace `Part003`): the bitemporal balance tables, the
transfer pipeline `processTransaction` with its helper statements, and the two
read handlers.  Timestamps are modelled as integers (seconds); the sentinel
`9999-12-31 23:59:59` used by the SQL literals is the constant `foreverTs`.
Database tables are lists of rows in insertion order; `db.Get` is `List.find?`
(Postgres returns the first matching row of the scan), SQL `UPDATE` is a map
over the rows, and the `PRIMARY KEY (user_id, valid_from)` on `balances`
(schema in `transaction_test.go` / `src/unnamed/part_000`) makes an `INSERT`
with a duplicate key fail with a statement-level database error.

A statement-level error leaves the SQL transaction in the aborted state, in
which `COMMIT` acts as `ROLLBACK`.  The Go code's deferred commit/rollback
handler reads the outer `err` variable of `processTransaction`, but every step
is checked with `if err := step(...); err != nil { return err }`, whose `err`
shadows the outer one; the outer `err` therefore stays `nil` and the deferred
handler always calls `tx.Commit()`.  `runStep` encodes exactly this: on a step
failure the final state is the initial store when the failing statement was a
database-level error (aborted transaction, commit rolls back) and the working
store otherwise (commit publishes the partial writes).
-/

/-- The sentinel `9999-12-31 23:59:59` (UTC seconds since the epoch);
`valid_to = foreverTs` marks the open balance version. -/
def foreverTs : Int := 253402300799

/-- A row of the `users` table (`src/unnamed/part_003`, `User`). -/
structure User where
  user_id : String
  username : String
  deriving DecidableEq

/-- A row of the `balances` table (`Balance` in `src/handlers/transaction.go`;
the `part_003` revision drops the `username` column, which no claim touches). -/
structure Balance where
  user_id : String
  username : String
  amount : Int
  valid_from : Int
  valid_to : Int
  deriving DecidableEq

/-- The decoded body of `POST /transaction` (`TransactionRequest`). -/
structure TransactionRequest where
  sender_id : String
  receiver_id : String
  amount : Int
  transaction_id : String
  effective_date : Int
  deriving DecidableEq

/-- A row of the `transaction_history` table (`TransactionHistory`). -/
structure TransactionHistory where
  id : Int
  sender_id : String
  receiver_id : String
  amount : Int
  transaction_id : String
  effective_date : Int
  recorded_at : Int
  deriving DecidableEq

/-- The three tables owned by the ledger store. -/
structure Store where
  users : List User
  balances : List Balance
  history : List TransactionHistory
  deriving DecidableEq

/-- Outcome of one step of `processTransaction`: either the new working store,
or a Go error message together with the working store at the failure and
whether the failure was a statement-level database error (which leaves the SQL
transaction aborted, so that the later `COMMIT` acts as `ROLLBACK`). -/
inductive StepResult where
  | ok (s : Store)
  | fail (msg : String) (dbErr : Bool) (s : Store)
  deriving DecidableEq

/-- The `WHERE user_id = $1 AND valid_to = '9999-12-31 23:59:59'` predicate. -/
def isOpenFor (userID : String) (r : Balance) : Bool :=
  r.user_id == userID && r.valid_to == foreverTs

/-- The `WHERE valid_to = '9999-12-31 23:59:59'` predicate. -/
def isOpen (r : Balance) : Bool :=
  r.valid_to == foreverTs

/-- `tx.Get(&currentBalance, "SELECT * FROM balances WHERE user_id = $1 AND
valid_to = '9999-12-31 23:59:59'")`: first matching row of the table scan. -/
def getOpenBalance (bs : List Balance) (userID : String) : Option Balance :=
  bs.find? (isOpenFor userID)

/-- `UPDATE balances SET valid_to = $1 WHERE user_id = $2 AND
valid_to = '9999-12-31 23:59:59'`. -/
def closeOpen (bs : List Balance) (userID : String) (effectiveDate : Int) :
    List Balance :=
  bs.map (fun r =>
    if isOpenFor userID r then { r with valid_to := effectiveDate } else r)

/-- A stored row collides with `(userID, validFrom)` under
`PRIMARY KEY (user_id, valid_from)`. -/
def pkConflict (userID : String) (validFrom : Int) (r : Balance) : Bool :=
  r.user_id == userID && r.valid_from == validFrom

/-- `INSERT INTO balances ...`; fails (statement-level error) when the new row
violates `PRIMARY KEY (user_id, valid_from)`. -/
def insertBalance (bs : List Balance) (row : Balance) : Option (List Balance) :=
  if bs.any (pkConflict row.user_id row.valid_from)
  then none
  else some (bs ++ [row])

/-- `updateBalance` from `src/handlers/transaction.go:150`. -/
def updateBalance (s : Store) (userID : String) (amount : Int)
    (effectiveDate : Int) : StepResult :=
  match getOpenBalance s.balances userID with
  | none => .fail "Failed to get current balance" false s
  | some currentBalance =>
    let newAmount := currentBalance.amount + amount
    if newAmount < 0 then .fail "Insufficient balance" false s
    else
      let closed := closeOpen s.balances userID effectiveDate
      match insertBalance closed
          { user_id := userID, username := currentBalance.username,
            amount := newAmount, valid_from := effectiveDate,
            valid_to := foreverTs } with
      | none =>
        .fail "Failed to insert new balance record" true
          { s with balances := closed }
      | some bs => .ok { s with balances := bs }

/-- Go's `<` on strings: lexicographic comparison of the UTF-8 bytes, which
for valid UTF-8 coincides with lexicographic comparison of the code points. -/
def goCharListLess : List Char → List Char → Bool
  | _, [] => false
  | [], _ :: _ => true
  | a :: as, b :: bs =>
    if a.toNat < b.toNat then true
    else if b.toNat < a.toNat then false
    else goCharListLess as bs

/-- Go's `senderID > receiverID` is `goStringLess receiverID senderID`. -/
def goStringLess (a b : String) : Bool :=
  goCharListLess a.data b.data

/-- The lock acquisition order of `acquireLock`
(`src/handlers/transaction.go:118`): the two ids, swapped into ascending
order when `senderID > receiverID`. -/
def lockOrderIds (senderID receiverID : String) : List String :=
  if goStringLess receiverID senderID then [receiverID, senderID]
  else [senderID, receiverID]

/-- `SELECT * FROM balances WHERE user_id = $1 FOR UPDATE`: acquires a row
lock; no row is modified, and in this single-session model it cannot fail. -/
def lockRow (s : Store) (_userID : String) : Store := s

/-- `acquireLock` from `src/handlers/transaction.go:118`. -/
def acquireLock (s : Store) (senderID receiverID : String) : StepResult :=
  .ok ((lockOrderIds senderID receiverID).foldl lockRow s)

/-- `checkDuplicateTransaction` from `src/handlers/transaction.go:137`:
`SELECT COUNT(*) FROM transaction_history WHERE transaction_id = $1`. -/
def checkDuplicateTransaction (s : Store) (transactionID : String) :
    StepResult :=
  let count :=
    (s.history.filter (fun h => h.transaction_id == transactionID)).length
  if count > 0 then .fail "Duplicate transaction" false s
  else .ok s

/-- `recordTransaction` from `src/handlers/transaction.go:190`: appends the
journal row (`id` is `SERIAL`, `recorded_at` is `CURRENT_TIMESTAMP`, modelled
by the `dbNow` parameter).  The `UNIQUE` constraint on `transaction_id` in the
test schema rejects a duplicate insert with a statement-level error. -/
def recordTransaction (dbNow : Int) (s : Store) (req : TransactionRequest) :
    StepResult :=
  if s.history.any (fun h => h.transaction_id == req.transaction_id) then
    .fail "Failed to record transaction history" true s
  else
    .ok { s with history := s.history ++
      [{ id := (s.history.length : Int) + 1, sender_id := req.sender_id,
         receiver_id := req.receiver_id, amount := req.amount,
         transaction_id := req.transaction_id,
         effective_date := req.effective_date, recorded_at := dbNow }] }

/-- Sequencing of one pipeline step with the behaviour of the deferred
commit/rollback handler of `processTransaction`.  The inner
`if err := step(...); err != nil` declarations shadow the outer `err` read by
the deferred function, so on failure the deferred function still calls
`tx.Commit()`: if the failing statement was a database-level error the SQL
transaction is aborted and the commit rolls back to the initial store `s0`,
otherwise the commit publishes the working store of the failure. -/
def runStep (s0 : Store) (r : StepResult)
    (k : Store → Option String × Store) : Option String × Store :=
  match r with
  | .ok s => k s
  | .fail msg dbErr s => (some msg, if dbErr then s0 else s)

/-- `processTransaction` from `src/handlers/transaction.go:67`. -/
def processTransaction (dbNow : Int) (s0 : Store) (req : TransactionRequest) :
    Option String × Store :=
  runStep s0 (acquireLock s0 req.sender_id req.receiver_id) (fun s1 =>
  runStep s0 (checkDuplicateTransaction s1 req.transaction_id) (fun s2 =>
  runStep s0 (updateBalance s2 req.sender_id (-req.amount) req.effective_date)
    (fun s3 =>
  runStep s0 (updateBalance s3 req.receiver_id req.amount req.effective_date)
    (fun s4 =>
  runStep s0 (recordTransaction dbNow s4 req) (fun s5 => (none, s5))))))

/-- The request validation performed by the `CustomValidator`
(`validate:"required"` on each field, `gt=0` on `amount`; a required
`time.Time` must not be the zero instant). -/
def validateReq (req : TransactionRequest) : Bool :=
  req.sender_id != "" && req.receiver_id != "" && decide (0 < req.amount) &&
  req.transaction_id != "" && req.effective_date != 0

/-- An HTTP response of the transfer endpoint together with the resulting
store state. -/
structure TxResponse where
  status : Nat
  body : Option String
  store : Store
  deriving DecidableEq

/-- Maps the outcome of `processTransaction` to the handler's response:
`c.JSON(http.StatusInternalServerError, ...)` on error, 200 on success. -/
def respond (p : Option String × Store) : TxResponse :=
  match p with
  | (some msg, s) => ⟨500, some msg, s⟩
  | (none, s) => ⟨200, some "取引が成功しました", s⟩

/-- `HandleTransaction` from `src/handlers/transaction.go:44` (request binding
is boundary work and elided; the validator failure response is kept). -/
def HandleTransaction (dbNow : Int) (s : Store) (req : TransactionRequest) :
    TxResponse :=
  if validateReq req then respond (processTransaction dbNow s req)
  else ⟨400, some "リクエストデータが無効です", s⟩

namespace Part003

/-- `checkUserExists` from `src/unnamed/part_003:136`:
`SELECT COUNT(*) FROM users WHERE user_id = $1`. -/
def checkUserExists (s : Store) (userID : String) : StepResult :=
  let count := (s.users.filter (fun u => u.user_id == userID)).length
  if count == 0 then .fail "User does not exist" false s
  else .ok s

/-- `processTransaction` from `src/unnamed/part_003:77`: like the
`transaction.go` pipeline but with the two user-existence checks first.
The deferred commit handler has the same shadowed-`err` structure. -/
def processTransaction (dbNow : Int) (s0 : Store) (req : TransactionRequest) :
    Option String × Store :=
  runStep s0 (checkUserExists s0 req.sender_id) (fun s1 =>
  runStep s0 (checkUserExists s1 req.receiver_id) (fun s2 =>
  runStep s0 (acquireLock s2 req.sender_id req.receiver_id) (fun s3 =>
  runStep s0 (checkDuplicateTransaction s3 req.transaction_id) (fun s4 =>
  runStep s0 (updateBalance s4 req.sender_id (-req.amount) req.effective_date)
    (fun s5 =>
  runStep s0 (updateBalance s5 req.receiver_id req.amount req.effective_date)
    (fun s6 =>
  runStep s0 (recordTransaction dbNow s6 req) (fun s7 => (none, s7))))))))

/-- `HandleTransaction` from `src/unnamed/part_003:49`: validation, then the
`req.EffectiveDate.Before(time.Now())` rejection, then the pipeline. -/
def HandleTransaction (now dbNow : Int) (s : Store)
    (req : TransactionRequest) : TxResponse :=
  if validateReq req then
    if req.effective_date < now then
      ⟨400, some "effective_dateは現在時刻以降の値を指定してください", s⟩
    else respond (Part003.processTransaction dbNow s req)
  else ⟨400, some "リクエストデータが無効です", s⟩

/-- The `WHERE user_id = $1 AND valid_from <= $2 AND valid_to > $2`
predicate of the as-of balance query. -/
def asOfPred (userID : String) (t : Int) (r : Balance) : Bool :=
  r.user_id == userID && decide (r.valid_from ≤ t) && decide (r.valid_to > t)

/-- `HandleGetBalance` from `src/unnamed/part_003:233`.  The handler only
executes `SELECT` statements, so the store component of the result is the
input store unchanged. -/
def HandleGetBalance (s : Store) (userID : String) (asOf : Option Int) :
    Nat × Option Balance × Store :=
  match asOf with
  | none =>
    match s.balances.find? (isOpenFor userID) with
    | none => (404, none, s)
    | some b => (200, some b, s)
  | some t =>
    match s.balances.find? (asOfPred userID t) with
    | none => (404, none, s)
    | some b => (200, some b, s)

end Part003

/-! ## Concrete fixtures

Stores and requests mirroring the seed data of `SetupTestDB`
(`src/handlers/transaction_test.go`): `user1` with 1000 and `user2` with 500,
each with a single open balance version. -/

/-- The seeded two-user store of the test database. -/
def seedStore : Store :=
  { users := [⟨"user1", "User 1"⟩, ⟨"user2", "User 2"⟩],
    balances := [⟨"user1", "User 1", 1000, 100, foreverTs⟩,
                 ⟨"user2", "User 2", 500, 100, foreverTs⟩],
    history := [] }

/-- A store where `user2` is known but has no balance row at all. -/
def ghostReceiverStore : Store :=
  { users := [⟨"user1", "User 1"⟩, ⟨"user2", "User 2"⟩],
    balances := [⟨"user1", "User 1", 1000, 100, foreverTs⟩],
    history := [] }

/-- A transfer of 100 from `user1` to `user2`, effective at instant 200. -/
def txReq : TransactionRequest :=
  ⟨"user1", "user2", 100, "tx-1", 200⟩

/-- A store in which an earlier future-dated transfer left `user1`'s open
balance version starting at instant 400. -/
def futureDatedStore : Store :=
  { users := [⟨"user1", "User 1"⟩, ⟨"user2", "User 2"⟩],
    balances := [⟨"user1", "User 1", 1000, 100, 400⟩,
                 ⟨"user1", "User 1", 900, 400, foreverTs⟩,
                 ⟨"user2", "User 2", 500, 100, foreverTs⟩],
    history := [] }

/-- Every `balances` row has `valid_from < valid_to`. -/
def allIntervalsPositive (bs : List Balance) : Bool :=
  bs.all (fun r => decide (r.valid_from < r.valid_to))

/-- `updateBalance` returned the `Insufficient balance` error. -/
def isInsufficientFailure (r : StepResult) : Bool :=
  match r with
  | .fail msg _ _ => msg == "Insufficient balance"
  | .ok _ => false

/-- The sum of `amount` over the open balance versions. -/
def openSum : List Balance → Int
  | [] => 0
  | r :: t => (if isOpen r then r.amount else 0) + openSum t

/-- The sum of `amount` over the open balance versions of one user. -/
def openSumFor (userID : String) : List Balance → Int
  | [] => 0
  | r :: t => (if isOpenFor userID r then r.amount else 0) + openSumFor userID t

/-- The user has exactly one open balance version, namely `r` (the single-open
data-model invariant, instantiated at one user). -/
abbrev singleOpenRow (s : Store) (userID : String) (r : Balance) : Prop :=
  s.balances.filter (isOpenFor userID) = [r]

/-! ## Theorems -/

theorem char_toNat_lt_iff (a b : Char) : a.toNat < b.toNat ↔ a < b :=
  Iff.symm Char.lt_iff_val_lt_val

theorem goCharListLess_iff : ∀ (as bs : List Char),
    goCharListLess as bs = true ↔ List.lt as bs := by
  intro as
  induction as with
  | nil =>
    intro bs
    cases bs with
    | nil =>
      simp only [goCharListLess]
      constructor
      · intro h
        cases h
      · intro h
        cases h
    | cons b bs =>
      simp only [goCharListLess]
      exact ⟨fun _ => List.lt.nil b bs, fun _ => trivial⟩
  | cons a as ih =>
    intro bs
    cases bs with
    | nil =>
      simp only [goCharListLess]
      constructor
      · intro h
        cases h
      · intro h
        cases h
    | cons b bs =>
      simp only [goCharListLess]
      by_cases hab : a.toNat < b.toNat
      · rw [if_pos hab]
        have hlt : a < b := (char_toNat_lt_iff a b).mp hab
        exact ⟨fun _ => List.lt.head as bs hlt, fun _ => rfl⟩
      · rw [if_neg hab]
        by_cases hba : b.toNat < a.toNat
        · rw [if_pos hba]
          have hba' : b < a := (char_toNat_lt_iff b a).mp hba
          constructor
          · intro h
            cases h
          · intro h
            cases h with
            | head _ _ h1 =>
              exact absurd h1 (fun h1 => hab ((char_toNat_lt_iff a b).mpr h1))
            | tail h1 h2 _ => exact absurd hba' h2
        · rw [if_neg hba]
          have hab' : ¬ a < b := fun h => hab ((char_toNat_lt_iff a b).mpr h)
          have hba' : ¬ b < a := fun h => hba ((char_toNat_lt_iff b a).mpr h)
          constructor
          · intro h
            exact List.lt.tail hab' hba' ((ih bs).mp h)
          · intro h
            cases h with
            | head _ _ h1 => exact absurd h1 hab'
            | tail _ _ h3 => exact (ih bs).mpr h3

theorem goStringLess_iff (a b : String) : goStringLess a b = true ↔ a < b := by
  rw [String.lt_iff_toList_lt]
  exact (goCharListLess_iff a.data b.data).trans
    (List.lt_iff_lex_lt a.data b.data)

/-- C8: the two row-lock acquisitions of `acquireLock` are issued on the
lexicographically smaller `user_id` first and the larger second. -/
theorem c8_lock_order (senderID receiverID : String) :
    lockOrderIds senderID receiverID =
      [min senderID receiverID, max senderID receiverID] := by
  unfold lockOrderIds
  by_cases h : goStringLess receiverID senderID = true
  · rw [if_pos h]
    have hlt : receiverID < senderID := (goStringLess_iff receiverID senderID).mp h
    rw [min_eq_right hlt.le, max_eq_left hlt.le]
  · rw [if_neg h]
    have hle : senderID ≤ receiverID := by
      by_contra hc
      push_neg at hc
      exact h ((goStringLess_iff receiverID senderID).mpr hc)
    rw [min_eq_left hle, max_eq_right hle]

/-- C1: refuted by evaluation — when the receiver's open-balance lookup fails
after the sender's debit was applied, `processTransaction` returns the error
but the deferred handler (whose outer `err` was shadowed by every inner
`if err :=` declaration) commits the unit-of-work, so the resulting store
keeps the sender's debit instead of equalling the initial state. -/
theorem c1_failure_commits_partial_debit :
    processTransaction 300 ghostReceiverStore txReq =
      (some "Failed to get current balance",
        { users := [⟨"user1", "User 1"⟩, ⟨"user2", "User 2"⟩],
          balances := [⟨"user1", "User 1", 1000, 100, 200⟩,
                       ⟨"user1", "User 1", 900, 200, foreverTs⟩],
          history := [] }) ∧
    (processTransaction 300 ghostReceiverStore txReq).2 ≠ ghostReceiverStore := by
  decide

/-- C3 counterexample: a committed transfer whose `effective_date` (200) lies
before the open row's `valid_from` (400) succeeds and leaves a balances row
with `valid_from = 400 > valid_to = 200`, so it is not the case that after
every committed transfer every row satisfies `valid_from < valid_to`. -/
theorem c3_committed_transfer_breaks_interval_order :
    (processTransaction 300 futureDatedStore txReq).1 = none ∧
    allIntervalsPositive (processTransaction 300 futureDatedStore txReq).2.balances
      = false := by
  decide

/-- C10: a balance update with a strictly positive delta (the receiver-credit
call, since the validated transfer amount is positive) can never take the
`Insufficient balance` branch when every stored amount is non-negative. -/
theorem c10_credit_never_insufficient (s : Store) (userID : String)
    (delta effectiveDate : Int) (hpos : 0 < delta)
    (hnonneg : ∀ r ∈ s.balances, 0 ≤ r.amount) :
    isInsufficientFailure (updateBalance s userID delta effectiveDate)
      = false := by
  unfold updateBalance
  cases hfind : getOpenBalance s.balances userID with
  | none => rfl
  | some r =>
    have hr : r ∈ s.balances := List.mem_of_find?_eq_some hfind
    have h0 : 0 ≤ r.amount := hnonneg r hr
    simp only []
    rw [if_neg (by omega : ¬ r.amount + delta < 0)]
    cases hins : insertBalance (closeOpen s.balances userID effectiveDate)
        { user_id := userID, username := r.username, amount := r.amount + delta,
          valid_from := effectiveDate, valid_to := foreverTs } with
    | none => rfl
    | some bs => rfl

/-- C10 witness: the credit of 100 to `user2` in the seeded store does not hit
the insufficient-balance branch. -/
theorem c10_credit_never_insufficient_witness :
    isInsufficientFailure (updateBalance seedStore "user2" 100 200) = false :=
  c10_credit_never_insufficient seedStore "user2" 100 200 (by decide) (by decide)

theorem find?_of_filter_eq_singleton {α : Type} {p : α → Bool} :
    ∀ {l : List α} {a : α}, l.filter p = [a] → l.find? p = some a := by
  intro l
  induction l with
  | nil => intro a h; simp at h
  | cons x t ih =>
    intro a h
    rw [List.filter_cons] at h
    by_cases hx : p x = true
    · rw [if_pos hx] at h
      injection h with h1 h2
      rw [List.find?_cons_of_pos _ hx, h1]
    · rw [if_neg hx] at h
      rw [List.find?_cons_of_neg _ hx]
      exact ih h

theorem acquireLock_eq (s : Store) (a b : String) : acquireLock s a b = .ok s := by
  unfold acquireLock lockOrderIds
  split
  · rfl
  · rfl

theorem isOpen_of_isOpenFor {uid : String} {r : Balance}
    (h : isOpenFor uid r = true) : isOpen r = true := by
  unfold isOpenFor at h
  rw [Bool.and_eq_true] at h
  exact h.2

theorem user_eq_of_isOpenFor {uid : String} {r : Balance}
    (h : isOpenFor uid r = true) : r.user_id = uid := by
  unfold isOpenFor at h
  rw [Bool.and_eq_true] at h
  exact beq_iff_eq.mp h.1

theorem filter_closeOpen_self (bs : List Balance) (uid : String) (eff : Int)
    (heff : (eff == foreverTs) = false) :
    (closeOpen bs uid eff).filter (isOpenFor uid) = [] := by
  induction bs with
  | nil => rfl
  | cons r t ih =>
    show List.filter (isOpenFor uid)
      ((if isOpenFor uid r then { r with valid_to := eff } else r) ::
        closeOpen t uid eff) = []
    rw [List.filter_cons]
    by_cases h : isOpenFor uid r = true
    · rw [if_pos h]
      have hfalse : isOpenFor uid { r with valid_to := eff } = false := by
        unfold isOpenFor
        simp [heff]
      simp [hfalse, ih]
    · rw [if_neg h]
      simp [h, ih]

theorem filter_closeOpen_other (bs : List Balance) (uid v : String) (eff : Int)
    (hne : v ≠ uid) :
    (closeOpen bs uid eff).filter (isOpenFor v) = bs.filter (isOpenFor v) := by
  induction bs with
  | nil => rfl
  | cons r t ih =>
    show List.filter (isOpenFor v)
      ((if isOpenFor uid r then { r with valid_to := eff } else r) ::
        closeOpen t uid eff) = List.filter (isOpenFor v) (r :: t)
    rw [List.filter_cons, List.filter_cons]
    by_cases h : isOpenFor uid r = true
    · rw [if_pos h]
      have hu : r.user_id = uid := user_eq_of_isOpenFor h
      have huv : (r.user_id == v) = false := by
        rw [hu]
        exact beq_eq_false_iff_ne.mpr (fun hh => hne hh.symm)
      have h1 : isOpenFor v { r with valid_to := eff } = false := by
        unfold isOpenFor
        simp [huv]
      have h2 : isOpenFor v r = false := by
        unfold isOpenFor
        simp [huv]
      simp [h1, h2, ih]
    · rw [if_neg h]
      by_cases h2 : isOpenFor v r = true
      · simp [h2, ih]
      · simp [h2, ih]

theorem any_pk_closeOpen (bs : List Balance) (uid v : String) (eff t : Int) :
    (closeOpen bs uid eff).any (pkConflict v t) = bs.any (pkConflict v t) := by
  induction bs with
  | nil => rfl
  | cons r tl ih =>
    show ((if isOpenFor uid r then { r with valid_to := eff } else r) ::
      closeOpen tl uid eff).any (pkConflict v t) = (r :: tl).any (pkConflict v t)
    rw [List.any_cons, List.any_cons, ih]
    by_cases h : isOpenFor uid r = true
    · rw [if_pos h]
      rfl
    · rw [if_neg h]

theorem openSum_append (l l' : List Balance) :
    openSum (l ++ l') = openSum l + openSum l' := by
  induction l with
  | nil => simp [openSum]
  | cons r t ih =>
    simp [openSum, ih]
    omega

theorem openSum_closeOpen (bs : List Balance) (uid : String) (eff : Int)
    (heff : (eff == foreverTs) = false) :
    openSum (closeOpen bs uid eff) = openSum bs - openSumFor uid bs := by
  induction bs with
  | nil => rfl
  | cons r t ih =>
    show openSum ((if isOpenFor uid r then { r with valid_to := eff } else r) ::
      closeOpen t uid eff) = _
    by_cases h : isOpenFor uid r = true
    · rw [if_pos h]
      have h1 : isOpen { r with valid_to := eff } = false := heff
      have h2 : isOpen r = true := isOpen_of_isOpenFor h
      simp only [openSum, openSumFor, h1, h2, h, ih]
      simp
    · rw [if_neg h]
      by_cases h2 : isOpen r = true
      · simp only [openSum, openSumFor, h, h2, ih]
        simp
        omega
      · have h2f : isOpen r = false := by
          simp at h2
          exact h2
        simp only [openSum, openSumFor, h, h2f, ih]
        simp

theorem openSumFor_of_filter_nil (uid : String) :
    ∀ bs : List Balance, bs.filter (isOpenFor uid) = [] → openSumFor uid bs = 0 := by
  intro bs
  induction bs with
  | nil => intro _; rfl
  | cons r t ih =>
    intro h
    rw [List.filter_cons] at h
    by_cases hr : isOpenFor uid r = true
    · rw [if_pos hr] at h
      simp at h
    · rw [if_neg hr] at h
      simp only [openSumFor, hr, if_false]
      simp [ih h]

theorem openSumFor_of_filter_singleton (uid : String) :
    ∀ (bs : List Balance) (r : Balance), bs.filter (isOpenFor uid) = [r] →
      openSumFor uid bs = r.amount := by
  intro bs
  induction bs with
  | nil => intro r h; simp at h
  | cons x t ih =>
    intro r h
    rw [List.filter_cons] at h
    by_cases hx : isOpenFor uid x = true
    · rw [if_pos hx] at h
      injection h with h1 h2
      simp only [openSumFor, hx, if_true]
      rw [h1, openSumFor_of_filter_nil uid t h2]
      omega
    · rw [if_neg hx] at h
      simp only [openSumFor, hx, if_false]
      simp [ih r h]

theorem checkDuplicateTransaction_eq_ok {s : Store} {tid : String}
    (h : s.history.any (fun e => e.transaction_id == tid) = false) :
    checkDuplicateTransaction s tid = .ok s := by
  have hnil : s.history.filter (fun e => e.transaction_id == tid) = [] := by
    rw [List.filter_eq_nil_iff]
    intro e he
    exact (List.any_eq_false.mp h) e he
  unfold checkDuplicateTransaction
  simp [hnil]

theorem checkDuplicateTransaction_eq_fail {s : Store} {tid : String}
    (h : s.history.any (fun e => e.transaction_id == tid) = true) :
    checkDuplicateTransaction s tid = .fail "Duplicate transaction" false s := by
  obtain ⟨e, he, hpe⟩ := List.any_eq_true.mp h
  have hmem : e ∈ s.history.filter (fun e => e.transaction_id == tid) :=
    List.mem_filter.mpr ⟨he, hpe⟩
  have hpos : 0 < (s.history.filter (fun e => e.transaction_id == tid)).length :=
    List.length_pos.mpr (List.ne_nil_of_mem hmem)
  unfold checkDuplicateTransaction
  simp [hpos]

theorem recordTransaction_eq_ok {dbNow : Int} {s : Store}
    {req : TransactionRequest}
    (h : s.history.any (fun e => e.transaction_id == req.transaction_id) = false) :
    recordTransaction dbNow s req = .ok { s with history := s.history ++
      [{ id := (s.history.length : Int) + 1, sender_id := req.sender_id,
         receiver_id := req.receiver_id, amount := req.amount,
         transaction_id := req.transaction_id,
         effective_date := req.effective_date, recorded_at := dbNow }] } := by
  unfold recordTransaction
  simp [h]

theorem recordTransaction_ok_inv {dbNow : Int} {s s' : Store}
    {req : TransactionRequest}
    (h : recordTransaction dbNow s req = .ok s') :
    s.history.any (fun e => e.transaction_id == req.transaction_id) = false ∧
    s' = { s with history := s.history ++
      [{ id := (s.history.length : Int) + 1, sender_id := req.sender_id,
         receiver_id := req.receiver_id, amount := req.amount,
         transaction_id := req.transaction_id,
         effective_date := req.effective_date, recorded_at := dbNow }] } := by
  unfold recordTransaction at h
  by_cases hx : s.history.any (fun e => e.transaction_id == req.transaction_id) = true
  · simp [hx] at h
  · have hxf : s.history.any (fun e => e.transaction_id == req.transaction_id)
        = false := by
      simpa using hx
    simp only [hxf] at h
    simp at h
    exact ⟨hxf, h.symm⟩

theorem updateBalance_eq_ok {s : Store} {uid : String} {delta eff : Int}
    {r : Balance}
    (hfind : getOpenBalance s.balances uid = some r)
    (hneg : ¬ (r.amount + delta < 0))
    (hany : (closeOpen s.balances uid eff).any (pkConflict uid eff) = false) :
    updateBalance s uid delta eff = .ok { s with
      balances := closeOpen s.balances uid eff ++
        [{ user_id := uid, username := r.username, amount := r.amount + delta,
           valid_from := eff, valid_to := foreverTs }] } := by
  unfold updateBalance insertBalance
  rw [hfind]
  simp only [hany]
  rw [if_neg hneg]
  simp

theorem updateBalance_eq_insufficient {s : Store} {uid : String}
    {delta eff : Int} {r : Balance}
    (hfind : getOpenBalance s.balances uid = some r)
    (hneg : r.amount + delta < 0) :
    updateBalance s uid delta eff = .fail "Insufficient balance" false s := by
  unfold updateBalance
  rw [hfind]
  simp only []
  rw [if_pos hneg]

theorem updateBalance_eq_conflict {s : Store} {uid : String} {delta eff : Int}
    {r : Balance}
    (hfind : getOpenBalance s.balances uid = some r)
    (hneg : ¬ (r.amount + delta < 0))
    (hany : (closeOpen s.balances uid eff).any (pkConflict uid eff) = true) :
    updateBalance s uid delta eff = .fail "Failed to insert new balance record"
      true { s with balances := closeOpen s.balances uid eff } := by
  unfold updateBalance insertBalance
  rw [hfind]
  simp only [hany]
  rw [if_neg hneg]
  simp

theorem updateBalance_ok_inv {s : Store} {uid : String} {delta eff : Int}
    {s₂ : Store}
    (h : updateBalance s uid delta eff = .ok s₂) :
    ∃ r, getOpenBalance s.balances uid = some r ∧
      ¬ (r.amount + delta < 0) ∧
      (closeOpen s.balances uid eff).any (pkConflict uid eff) = false ∧
      s₂ = { s with
        balances := closeOpen s.balances uid eff ++
          [{ user_id := uid, username := r.username,
             amount := r.amount + delta, valid_from := eff,
             valid_to := foreverTs }] } := by
  cases hfind : getOpenBalance s.balances uid with
  | none =>
    rw [updateBalance, hfind] at h
    simp at h
  | some r =>
    by_cases hneg : r.amount + delta < 0
    · rw [updateBalance_eq_insufficient hfind hneg] at h
      simp at h
    · by_cases hany : (closeOpen s.balances uid eff).any (pkConflict uid eff)
          = true
      · rw [updateBalance_eq_conflict hfind hneg hany] at h
        simp at h
      · have hanyf : (closeOpen s.balances uid eff).any (pkConflict uid eff)
            = false := by
          simpa using hany
        rw [updateBalance_eq_ok hfind hneg hanyf] at h
        simp at h
        exact ⟨r, rfl, hneg, hanyf, h.symm⟩

theorem processTransaction_ok_inv {dbNow : Int} {s0 s' : Store}
    {req : TransactionRequest}
    (h : processTransaction dbNow s0 req = (none, s')) :
    ∃ s3 s4,
      s0.history.any (fun e => e.transaction_id == req.transaction_id)
        = false ∧
      updateBalance s0 req.sender_id (-req.amount) req.effective_date
        = .ok s3 ∧
      updateBalance s3 req.receiver_id req.amount req.effective_date
        = .ok s4 ∧
      recordTransaction dbNow s4 req = .ok s' := by
  unfold processTransaction at h
  rw [acquireLock_eq] at h
  simp only [runStep] at h
  by_cases hdup : s0.history.any (fun e => e.transaction_id == req.transaction_id)
      = true
  · rw [checkDuplicateTransaction_eq_fail hdup] at h
    simp [runStep] at h
  · have hdupf : s0.history.any (fun e => e.transaction_id == req.transaction_id)
        = false := by
      simpa using hdup
    rw [checkDuplicateTransaction_eq_ok hdupf] at h
    simp only [runStep] at h
    cases hub1 : updateBalance s0 req.sender_id (-req.amount)
        req.effective_date with
    | fail msg dbErr sx =>
      rw [hub1] at h
      simp [runStep] at h
    | ok s3 =>
      rw [hub1] at h
      simp only [runStep] at h
      cases hub2 : updateBalance s3 req.receiver_id req.amount
          req.effective_date with
      | fail msg dbErr sx =>
        rw [hub2] at h
        simp [runStep] at h
      | ok s4 =>
        rw [hub2] at h
        simp only [runStep] at h
        cases hrec : recordTransaction dbNow s4 req with
        | fail msg dbErr sx =>
          rw [hrec] at h
          simp [runStep] at h
        | ok s5 =>
          rw [hrec] at h
          simp only [runStep] at h
          have hs5 : s5 = s' := by
            simpa using h
          exact ⟨s3, s4, hdupf, rfl, hub2, hs5 ▸ hrec⟩

theorem openSum_single_new (uid uname : String) (amt eff : Int) :
    openSum [{ user_id := uid, username := uname, amount := amt,
                valid_from := eff, valid_to := foreverTs }] = amt := by
  simp [openSum, isOpen]

/-- C2: a committed transfer leaves the sum of `amount` over the open balance
versions unchanged, for any initial state in which sender and receiver each
have exactly one open row (the single-open data-model invariant) and the
transfer's `effective_date` is a real instant (not the `+∞` sentinel). -/
theorem c2_conservation {dbNow : Int} {s s' : Store} {req : TransactionRequest}
    {rs rr : Balance}
    (hne : req.sender_id ≠ req.receiver_id)
    (hs : singleOpenRow s req.sender_id rs)
    (hr : singleOpenRow s req.receiver_id rr)
    (heff : (req.effective_date == foreverTs) = false)
    (h : processTransaction dbNow s req = (none, s')) :
    openSum s'.balances = openSum s.balances := by
  obtain ⟨s3, s4, hdup, hub1, hub2, hrec⟩ := processTransaction_ok_inv h
  obtain ⟨r1, hfind1, hneg1, hany1, hs3⟩ := updateBalance_ok_inv hub1
  obtain ⟨r2, hfind2, hneg2, hany2, hs4⟩ := updateBalance_ok_inv hub2
  obtain ⟨hrecdup, hs5⟩ := recordTransaction_ok_inv hrec
  have hfs : getOpenBalance s.balances req.sender_id = some rs :=
    find?_of_filter_eq_singleton hs
  have hr1 : r1 = rs := Option.some.inj (hfind1.symm.trans hfs)
  rw [hr1] at hs3
  have hb3 : s3.balances
      = closeOpen s.balances req.sender_id req.effective_date ++
        [{ user_id := req.sender_id, username := rs.username,
            amount := rs.amount + -req.amount,
            valid_from := req.effective_date, valid_to := foreverTs }] := by
    rw [hs3]
  have hsum3 : openSum s3.balances = openSum s.balances + -req.amount := by
    rw [hb3, openSum_append, openSum_closeOpen _ _ _ heff,
      openSum_single_new, openSumFor_of_filter_singleton _ _ _ hs]
    omega
  have hrs3 : s3.balances.filter (isOpenFor req.receiver_id) = [rr] := by
    rw [hb3, List.filter_append,
      filter_closeOpen_other _ _ _ _ (Ne.symm hne)]
    have hrow : isOpenFor req.receiver_id
        { user_id := req.sender_id, username := rs.username,
           amount := rs.amount + -req.amount,
           valid_from := req.effective_date, valid_to := foreverTs } = false := by
      unfold isOpenFor
      simp [beq_eq_false_iff_ne.mpr hne]
    simp [hrow]
    exact hr
  have hfr3 : getOpenBalance s3.balances req.receiver_id = some rr :=
    find?_of_filter_eq_singleton hrs3
  have hr2 : r2 = rr := Option.some.inj (hfind2.symm.trans hfr3)
  rw [hr2] at hs4
  have hb4 : s4.balances
      = closeOpen s3.balances req.receiver_id req.effective_date ++
        [{ user_id := req.receiver_id, username := rr.username,
            amount := rr.amount + req.amount,
            valid_from := req.effective_date, valid_to := foreverTs }] := by
    rw [hs4]
  have hsum4 : openSum s4.balances = openSum s3.balances + req.amount := by
    rw [hb4, openSum_append, openSum_closeOpen _ _ _ heff,
      openSum_single_new, openSumFor_of_filter_singleton _ _ _ hrs3]
    omega
  have hb5 : s'.balances = s4.balances := by
    rw [hs5]
  rw [hb5, hsum4, hsum3]
  omega

/-- C2 witness: the transfer of 100 from `user1` to `user2` on the seeded
store commits and conserves the open-balance total. -/
theorem c2_conservation_witness :
    ∃ s', processTransaction 300 seedStore txReq = (none, s') ∧
      openSum s'.balances = openSum seedStore.balances := by
  refine ⟨(processTransaction 300 seedStore txReq).2, by decide, ?_⟩
  exact @c2_conservation 300 seedStore (processTransaction 300 seedStore txReq).2
    txReq ⟨"user1", "User 1", 1000, 100, foreverTs⟩
    ⟨"user2", "User 2", 500, 100, foreverTs⟩
    (by decide) (by decide) (by decide) (by decide) (by decide)

/-- An attempted transfer of more than the sender's balance. -/
def bigReq : TransactionRequest :=
  ⟨"user1", "user2", 2000, "tx-2", 200⟩

/-- C6: with the data-model invariants, a fresh `transaction_id`, distinct
parties and an effective instant below the sentinel: a transfer of `a` with
sender balance `b` fails with the `Insufficient balance` error and leaves the
store untouched when `a > b`; otherwise any committed run leaves the sender's
open balance at `b - a` and the receiver's at its prior value plus `a`. -/
theorem c6_debit_credit {dbNow : Int} {s : Store} {req : TransactionRequest}
    {rs rr : Balance}
    (hpos : 0 < req.amount)
    (hne : req.sender_id ≠ req.receiver_id)
    (hdup : s.history.any (fun e => e.transaction_id == req.transaction_id)
      = false)
    (hs : singleOpenRow s req.sender_id rs)
    (hr : singleOpenRow s req.receiver_id rr)
    (heff : (req.effective_date == foreverTs) = false) :
    (rs.amount < req.amount →
      processTransaction dbNow s req = (some "Insufficient balance", s)) ∧
    (req.amount ≤ rs.amount →
      ∀ s', processTransaction dbNow s req = (none, s') →
        Option.map Balance.amount (getOpenBalance s'.balances req.sender_id)
          = some (rs.amount - req.amount) ∧
        Option.map Balance.amount (getOpenBalance s'.balances req.receiver_id)
          = some (rr.amount + req.amount)) := by
  constructor
  · intro hlt
    unfold processTransaction
    rw [acquireLock_eq]
    simp only [runStep]
    rw [checkDuplicateTransaction_eq_ok hdup]
    simp only [runStep]
    rw [updateBalance_eq_insufficient (find?_of_filter_eq_singleton hs)
      (by omega : rs.amount + -req.amount < 0)]
    simp [runStep]
  · intro hle s' h
    obtain ⟨s3, s4, hdup', hub1, hub2, hrec⟩ := processTransaction_ok_inv h
    obtain ⟨r1, hfind1, hneg1, hany1, hs3⟩ := updateBalance_ok_inv hub1
    obtain ⟨r2, hfind2, hneg2, hany2, hs4⟩ := updateBalance_ok_inv hub2
    obtain ⟨hrecdup, hs5⟩ := recordTransaction_ok_inv hrec
    have hfs : getOpenBalance s.balances req.sender_id = some rs :=
      find?_of_filter_eq_singleton hs
    have hr1 : r1 = rs := Option.some.inj (hfind1.symm.trans hfs)
    rw [hr1] at hs3
    have hb3 : s3.balances
        = closeOpen s.balances req.sender_id req.effective_date ++
          [{ user_id := req.sender_id, username := rs.username,
              amount := rs.amount + -req.amount,
              valid_from := req.effective_date, valid_to := foreverTs }] := by
      rw [hs3]
    have hrs3 : s3.balances.filter (isOpenFor req.receiver_id) = [rr] := by
      rw [hb3, List.filter_append,
        filter_closeOpen_other _ _ _ _ (Ne.symm hne)]
      have hrow : isOpenFor req.receiver_id
          { user_id := req.sender_id, username := rs.username,
             amount := rs.amount + -req.amount,
             valid_from := req.effective_date, valid_to := foreverTs }
          = false := by
        unfold isOpenFor
        simp [beq_eq_false_iff_ne.mpr hne]
      simp [hrow]
      exact hr
    have hfr3 : getOpenBalance s3.balances req.receiver_id = some rr :=
      find?_of_filter_eq_singleton hrs3
    have hr2 : r2 = rr := Option.some.inj (hfind2.symm.trans hfr3)
    rw [hr2] at hs4
    have hb4 : s4.balances
        = closeOpen s3.balances req.receiver_id req.effective_date ++
          [{ user_id := req.receiver_id, username := rr.username,
              amount := rr.amount + req.amount,
              valid_from := req.effective_date, valid_to := foreverTs }] := by
      rw [hs4]
    have hb5 : s'.balances = s4.balances := by
      rw [hs5]
    have hSrow : isOpenFor req.sender_id
        { user_id := req.sender_id, username := rs.username,
           amount := rs.amount + -req.amount,
           valid_from := req.effective_date, valid_to := foreverTs }
        = true := by
      simp [isOpenFor]
    have hRrowS : isOpenFor req.sender_id
        { user_id := req.receiver_id, username := rr.username,
           amount := rr.amount + req.amount,
           valid_from := req.effective_date, valid_to := foreverTs }
        = false := by
      unfold isOpenFor
      simp [beq_eq_false_iff_ne.mpr (Ne.symm hne)]
    have hRrow : isOpenFor req.receiver_id
        { user_id := req.receiver_id, username := rr.username,
           amount := rr.amount + req.amount,
           valid_from := req.effective_date, valid_to := foreverTs }
        = true := by
      simp [isOpenFor]
    have hsf4 : s4.balances.filter (isOpenFor req.sender_id)
        = [{ user_id := req.sender_id, username := rs.username,
              amount := rs.amount + -req.amount,
              valid_from := req.effective_date, valid_to := foreverTs }] := by
      rw [hb4, List.filter_append, filter_closeOpen_other _ _ _ _ hne, hb3,
        List.filter_append, filter_closeOpen_self _ _ _ heff]
      simp [hSrow, hRrowS]
    have hrf4 : s4.balances.filter (isOpenFor req.receiver_id)
        = [{ user_id := req.receiver_id, username := rr.username,
              amount := rr.amount + req.amount,
              valid_from := req.effective_date, valid_to := foreverTs }] := by
      rw [hb4, List.filter_append, filter_closeOpen_self _ _ _ heff]
      simp [hRrow]
    constructor
    · rw [hb5,
        show getOpenBalance s4.balances req.sender_id = _ from
          find?_of_filter_eq_singleton hsf4]
      simp [Option.map]
      omega
    · rw [hb5,
        show getOpenBalance s4.balances req.receiver_id = _ from
          find?_of_filter_eq_singleton hrf4]
      simp [Option.map]

/-- C6 witness: transferring 2000 against a balance of 1000 fails with the
`Insufficient balance` error and leaves the seeded store unchanged. -/
theorem c6_debit_credit_witness :
    processTransaction 300 seedStore bigReq
      = (some "Insufficient balance", seedStore) := by
  have h := @c6_debit_credit 300 seedStore bigReq
    ⟨"user1", "User 1", 1000, 100, foreverTs⟩
    ⟨"user2", "User 2", 500, 100, foreverTs⟩
    (by decide) (by decide) (by decide) (by decide) (by decide) (by decide)
  exact h.1 (by decide)

/-- C7: once a transfer with a given `TransactionRequest` has committed,
resubmitting the identical request fails with the `Duplicate transaction`
error and returns the store exactly as the first submission left it; the
first submission appended exactly one journal row carrying the request's
`transaction_id`, and pairwise distinctness of journal `transaction_id`
values is preserved. -/
theorem c7_duplicate_second_submission {dbNow dbNow2 : Int} {s s1 : Store}
    {req : TransactionRequest}
    (h : processTransaction dbNow s req = (none, s1)) :
    processTransaction dbNow2 s1 req = (some "Duplicate transaction", s1) ∧
    s1.history.map (fun e => e.transaction_id)
      = s.history.map (fun e => e.transaction_id) ++ [req.transaction_id] ∧
    ((s.history.map (fun e => e.transaction_id)).Nodup →
      (s1.history.map (fun e => e.transaction_id)).Nodup) := by
  obtain ⟨s3, s4, hdup, hub1, hub2, hrec⟩ := processTransaction_ok_inv h
  obtain ⟨r1, hf1, hn1, ha1, hs3⟩ := updateBalance_ok_inv hub1
  obtain ⟨r2, hf2, hn2, ha2, hs4⟩ := updateBalance_ok_inv hub2
  obtain ⟨hrecdup, hs5⟩ := recordTransaction_ok_inv hrec
  have hh3 : s3.history = s.history := by
    rw [hs3]
  have hh4 : s4.history = s.history := by
    rw [hs4, hh3]
  have hh5 : s1.history = s.history ++
      [{ id := (s.history.length : Int) + 1, sender_id := req.sender_id,
          receiver_id := req.receiver_id, amount := req.amount,
          transaction_id := req.transaction_id,
          effective_date := req.effective_date, recorded_at := dbNow }] := by
    rw [hs5]
    rw [hh4]
  have hmem : s1.history.any (fun e => e.transaction_id == req.transaction_id)
      = true := by
    rw [hh5]
    simp [List.any_append]
  refine ⟨?_, ?_, ?_⟩
  · unfold processTransaction
    rw [acquireLock_eq]
    simp only [runStep]
    rw [checkDuplicateTransaction_eq_fail hmem]
    simp [runStep]
  · rw [hh5]
    simp
  · intro hnodup
    rw [hh5, List.map_append]
    rw [List.nodup_append]
    refine ⟨hnodup, by simp, ?_⟩
    intro x hx hx'
    simp at hx'
    obtain ⟨e, he, hid⟩ := List.mem_map.mp hx
    have hne := List.any_eq_false.mp hdup e he
    rw [hx'] at hid
    exact hne (beq_iff_eq.mpr hid)

/-- C7 witness: submitting `txReq` twice on the seeded store yields one
commit and then the duplicate error with the store unchanged. -/
theorem c7_duplicate_second_submission_witness :
    processTransaction 301 (processTransaction 300 seedStore txReq).2 txReq
      = (some "Duplicate transaction",
          (processTransaction 300 seedStore txReq).2) := by
  have h := @c7_duplicate_second_submission 300 301 seedStore
    (processTransaction 300 seedStore txReq).2 txReq (by decide)
  exact h.1

theorem valid_closeOpen {bs : List Balance} {uid : String} {eff : Int}
    (hvalid : ∀ r ∈ bs, r.valid_from < r.valid_to)
    (hopen : ∀ r ∈ bs, isOpenFor uid r = true → r.valid_from < eff) :
    ∀ r ∈ closeOpen bs uid eff, r.valid_from < r.valid_to := by
  intro r hrmem
  unfold closeOpen at hrmem
  obtain ⟨r0, hr0, hmap⟩ := List.mem_map.mp hrmem
  by_cases h : isOpenFor uid r0 = true
  · rw [if_pos h] at hmap
    rw [← hmap]
    simpa using hopen r0 hr0 h
  · rw [if_neg h] at hmap
    rw [← hmap]
    exact hvalid r0 hr0

theorem open_row_unique {bs : List Balance} {uid : String} {rr : Balance}
    (hfil : bs.filter (isOpenFor uid) = [rr]) :
    ∀ r ∈ bs, isOpenFor uid r = true → r = rr := by
  intro r hmem hp
  have hin : r ∈ bs.filter (isOpenFor uid) := List.mem_filter.mpr ⟨hmem, hp⟩
  rw [hfil] at hin
  simpa using hin

theorem mem_of_singleOpenRow {s : Store} {uid : String} {r : Balance}
    (h : singleOpenRow s uid r) : r ∈ s.balances ∧ isOpenFor uid r = true := by
  have hin : r ∈ s.balances.filter (isOpenFor uid) := by
    rw [h]
    simp
  exact ⟨List.mem_of_mem_filter hin, List.of_mem_filter hin⟩

/-- C3 (amended): the engine never updates a row in place.  With the
data-model invariants, a fresh effective instant, and sufficient funds:
(a) when the effective date lies strictly after the `valid_from` of both
open rows, a committed transfer preserves `valid_from < valid_to` on every
row; (b) when the effective date equals the sender's open row's `valid_from`,
the `INSERT` collides with `PRIMARY KEY (user_id, valid_from)`, the
unit-of-work is rolled back by the aborted-transaction commit, and the
transfer fails with the insert error, leaving the store unchanged. -/
theorem c3_intervals_and_no_inplace_update {dbNow : Int} {s : Store}
    {req : TransactionRequest} {rs rr : Balance}
    (hne : req.sender_id ≠ req.receiver_id)
    (hdup : s.history.any (fun e => e.transaction_id == req.transaction_id)
      = false)
    (hs : singleOpenRow s req.sender_id rs)
    (hr : singleOpenRow s req.receiver_id rr)
    (hamt : req.amount ≤ rs.amount)
    (hvalid : ∀ r ∈ s.balances, r.valid_from < r.valid_to)
    (heff : req.effective_date < foreverTs) :
    (rs.valid_from < req.effective_date →
      rr.valid_from < req.effective_date →
      ∀ s', processTransaction dbNow s req = (none, s') →
        ∀ r ∈ s'.balances, r.valid_from < r.valid_to) ∧
    (req.effective_date = rs.valid_from →
      processTransaction dbNow s req
        = (some "Failed to insert new balance record", s)) := by
  have heffne : (req.effective_date == foreverTs) = false :=
    beq_eq_false_iff_ne.mpr (ne_of_lt heff)
  constructor
  · intro hlts hltr s' h
    obtain ⟨s3, s4, hdup', hub1, hub2, hrec⟩ := processTransaction_ok_inv h
    obtain ⟨r1, hfind1, hneg1, hany1, hs3⟩ := updateBalance_ok_inv hub1
    obtain ⟨r2, hfind2, hneg2, hany2, hs4⟩ := updateBalance_ok_inv hub2
    obtain ⟨hrecdup, hs5⟩ := recordTransaction_ok_inv hrec
    have hfs : getOpenBalance s.balances req.sender_id = some rs :=
      find?_of_filter_eq_singleton hs
    have hr1 : r1 = rs := Option.some.inj (hfind1.symm.trans hfs)
    rw [hr1] at hs3
    have hb3 : s3.balances
        = closeOpen s.balances req.sender_id req.effective_date ++
          [{ user_id := req.sender_id, username := rs.username,
              amount := rs.amount + -req.amount,
              valid_from := req.effective_date, valid_to := foreverTs }] := by
      rw [hs3]
    have hv3 : ∀ r ∈ s3.balances, r.valid_from < r.valid_to := by
      rw [hb3]
      intro r hrmem
      rcases List.mem_append.mp hrmem with hl | hr'
      · exact valid_closeOpen hvalid
          (fun r0 h0 hp0 => by
            rw [open_row_unique hs r0 h0 hp0]
            exact hlts) r hl
      · have : r = { user_id := req.sender_id, username := rs.username,
                      amount := rs.amount + -req.amount,
                      valid_from := req.effective_date,
                      valid_to := foreverTs } := by
          simpa using hr'
        rw [this]
        exact heff
    have hrs3 : s3.balances.filter (isOpenFor req.receiver_id) = [rr] := by
      rw [hb3, List.filter_append,
        filter_closeOpen_other _ _ _ _ (Ne.symm hne)]
      have hrow : isOpenFor req.receiver_id
          { user_id := req.sender_id, username := rs.username,
             amount := rs.amount + -req.amount,
             valid_from := req.effective_date, valid_to := foreverTs }
          = false := by
        unfold isOpenFor
        simp [beq_eq_false_iff_ne.mpr hne]
      simp [hrow]
      exact hr
    have hfr3 : getOpenBalance s3.balances req.receiver_id = some rr :=
      find?_of_filter_eq_singleton hrs3
    have hr2 : r2 = rr := Option.some.inj (hfind2.symm.trans hfr3)
    rw [hr2] at hs4
    have hb4 : s4.balances
        = closeOpen s3.balances req.receiver_id req.effective_date ++
          [{ user_id := req.receiver_id, username := rr.username,
              amount := rr.amount + req.amount,
              valid_from := req.effective_date, valid_to := foreverTs }] := by
      rw [hs4]
    have hb5 : s'.balances = s4.balances := by
      rw [hs5]
    rw [hb5, hb4]
    intro r hrmem
    rcases List.mem_append.mp hrmem with hl | hr'
    · exact valid_closeOpen hv3
        (fun r0 h0 hp0 => by
          rw [open_row_unique hrs3 r0 h0 hp0]
          exact hltr) r hl
    · have : r = { user_id := req.receiver_id, username := rr.username,
                    amount := rr.amount + req.amount,
                    valid_from := req.effective_date,
                    valid_to := foreverTs } := by
        simpa using hr'
      rw [this]
      exact heff
  · intro heq
    unfold processTransaction
    rw [acquireLock_eq]
    simp only [runStep]
    rw [checkDuplicateTransaction_eq_ok hdup]
    simp only [runStep]
    obtain ⟨hmem, hopen⟩ := mem_of_singleOpenRow hs
    have huser : rs.user_id = req.sender_id := user_eq_of_isOpenFor hopen
    have hany : (closeOpen s.balances req.sender_id req.effective_date).any
        (pkConflict req.sender_id req.effective_date) = true := by
      rw [any_pk_closeOpen]
      apply List.any_eq_true.mpr
      refine ⟨rs, hmem, ?_⟩
      unfold pkConflict
      rw [huser, heq]
      simp
    rw [updateBalance_eq_conflict (find?_of_filter_eq_singleton hs)
      (by omega : ¬ (rs.amount + -req.amount < 0)) hany]
    simp [runStep]

/-- C3 witness: the committed transfer of 100 at instant 200 on the seeded
store (whose open rows start at 100) keeps every interval positive. -/
theorem c3_intervals_witness :
    allIntervalsPositive ((processTransaction 300 seedStore txReq).2).balances
      = true := by
  have h := @c3_intervals_and_no_inplace_update 300 seedStore txReq
    ⟨"user1", "User 1", 1000, 100, foreverTs⟩
    ⟨"user2", "User 2", 500, 100, foreverTs⟩
    (by decide) (by decide) (by decide) (by decide) (by decide) (by decide)
    (by decide)
  have hA := h.1 (by decide) (by decide)
    (processTransaction 300 seedStore txReq).2 (by decide)
  unfold allIntervalsPositive
  rw [List.all_eq_true]
  intro r hrmem
  exact decide_eq_true (hA r hrmem)

/-- A transfer from `user1` to itself. -/
def selfReq : TransactionRequest :=
  ⟨"user1", "user1", 100, "tx-1", 200⟩

/-- C4 counterexample: a structurally valid self-transfer is not rejected
before the unit-of-work with a self-transfer error; it enters the pipeline
and surfaces the balance-insert failure from inside it, with HTTP 500. -/
theorem c4_self_transfer_not_rejected :
    (HandleTransaction 300 seedStore selfReq).status = 500 ∧
    (HandleTransaction 300 seedStore selfReq).body
      = some "Failed to insert new balance record" := by
  decide

/-- C4 (amended): the code has no self-transfer check.  A valid self-transfer
with sufficient funds and a fresh effective instant enters the unit-of-work,
debits the user, and then fails on the credit's `INSERT` with a
`PRIMARY KEY (user_id, valid_from)` collision; the aborted transaction is
rolled back by the commit, so the handler returns 500 with the insert error
and the store is unchanged. -/
theorem c4_self_transfer_enters_pipeline {dbNow : Int} {s : Store}
    {req : TransactionRequest} {rs : Balance}
    (hself : req.sender_id = req.receiver_id)
    (hvreq : validateReq req = true)
    (hpos : 0 < req.amount)
    (hdup : s.history.any (fun e => e.transaction_id == req.transaction_id)
      = false)
    (hs : singleOpenRow s req.sender_id rs)
    (hamt : req.amount ≤ rs.amount)
    (heff : (req.effective_date == foreverTs) = false)
    (hpk : s.balances.any (pkConflict req.sender_id req.effective_date)
      = false) :
    HandleTransaction dbNow s req
      = ⟨500, some "Failed to insert new balance record", s⟩ := by
  unfold HandleTransaction
  rw [if_pos hvreq]
  suffices hp : processTransaction dbNow s req
      = (some "Failed to insert new balance record", s) by
    rw [hp]
    rfl
  unfold processTransaction
  rw [← hself]
  rw [acquireLock_eq]
  simp only [runStep]
  rw [checkDuplicateTransaction_eq_ok hdup]
  simp only [runStep]
  have hneg1 : ¬ (rs.amount + -req.amount < 0) := by omega
  have hany1 : (closeOpen s.balances req.sender_id req.effective_date).any
      (pkConflict req.sender_id req.effective_date) = false := by
    rw [any_pk_closeOpen]
    exact hpk
  rw [updateBalance_eq_ok (find?_of_filter_eq_singleton hs) hneg1 hany1]
  simp only [runStep]
  have hfil : (closeOpen s.balances req.sender_id req.effective_date ++
      [({ user_id := req.sender_id, username := rs.username,
          amount := rs.amount + -req.amount,
          valid_from := req.effective_date,
          valid_to := foreverTs } : Balance)]).filter
      (isOpenFor req.sender_id)
      = [{ user_id := req.sender_id, username := rs.username,
            amount := rs.amount + -req.amount,
            valid_from := req.effective_date, valid_to := foreverTs }] := by
    rw [List.filter_append, filter_closeOpen_self _ _ _ heff]
    simp [isOpenFor]
  have hfind2 : getOpenBalance ({ s with
      balances := closeOpen s.balances req.sender_id req.effective_date ++
        [{ user_id := req.sender_id, username := rs.username,
            amount := rs.amount + -req.amount,
            valid_from := req.effective_date,
            valid_to := foreverTs }] } : Store).balances req.sender_id
      = some { user_id := req.sender_id, username := rs.username,
                amount := rs.amount + -req.amount,
                valid_from := req.effective_date, valid_to := foreverTs } :=
    find?_of_filter_eq_singleton hfil
  have hneg2 : ¬ (rs.amount + -req.amount + req.amount < 0) := by omega
  have hany2 : (closeOpen ({ s with
      balances := closeOpen s.balances req.sender_id req.effective_date ++
        [{ user_id := req.sender_id, username := rs.username,
            amount := rs.amount + -req.amount,
            valid_from := req.effective_date,
            valid_to := foreverTs }] } : Store).balances
      req.sender_id req.effective_date).any
      (pkConflict req.sender_id req.effective_date) = true := by
    rw [any_pk_closeOpen]
    rw [List.any_append]
    have hc : pkConflict req.sender_id req.effective_date
        { user_id := req.sender_id, username := rs.username,
           amount := rs.amount + -req.amount,
           valid_from := req.effective_date, valid_to := foreverTs }
        = true := by
      unfold pkConflict
      simp
    simp [hc]
  rw [updateBalance_eq_conflict hfind2 hneg2 hany2]
  simp [runStep]

/-- C4 amended-claim witness: the self-transfer on the seeded store. -/
theorem c4_self_transfer_enters_pipeline_witness :
    HandleTransaction 300 seedStore selfReq
      = ⟨500, some "Failed to insert new balance record", seedStore⟩ :=
  @c4_self_transfer_enters_pipeline 300 seedStore selfReq
    ⟨"user1", "User 1", 1000, 100, foreverTs⟩
    (by decide) (by decide) (by decide) (by decide) (by decide) (by decide)
    (by decide) (by decide)

/-- C5: in the `part_003` revision of the handler, a structurally valid
request with `effective_date` strictly before `now` is rejected with HTTP 400
and an unchanged store, while `effective_date = now` passes the check and the
response is exactly that of executing the transfer pipeline. -/
theorem c5_effective_date_check {now dbNow : Int} {s : Store}
    {req : TransactionRequest}
    (hv : validateReq req = true) :
    (req.effective_date < now →
      Part003.HandleTransaction now dbNow s req
        = ⟨400, some "effective_dateは現在時刻以降の値を指定してください", s⟩) ∧
    (req.effective_date = now →
      Part003.HandleTransaction now dbNow s req
        = respond (Part003.processTransaction dbNow s req)) := by
  constructor
  · intro hlt
    unfold Part003.HandleTransaction
    rw [if_pos hv, if_pos hlt]
  · intro heq
    unfold Part003.HandleTransaction
    rw [if_pos hv, if_neg (by omega : ¬ req.effective_date < now)]

/-- C5 witness: with `now = 200`, the request effective at 200 proceeds to
the pipeline (and, at 201, the same request would be rejected). -/
theorem c5_effective_date_check_witness :
    Part003.HandleTransaction 200 300 seedStore txReq
      = respond (Part003.processTransaction 300 seedStore txReq) :=
  (@c5_effective_date_check 200 300 seedStore txReq (by decide)).2 rfl

/-- C9: the `part_003` balance query returns HTTP 200 with the unique row
whose interval `[valid_from, valid_to)` contains `as_of` (the open row when
`as_of` is absent), returns HTTP 404 when no such row exists, and always
returns the store unchanged (it only executes `SELECT`s). -/
theorem c9_get_balance (s : Store) (userID : String) :
    (∀ t r, s.balances.filter (Part003.asOfPred userID t) = [r] →
      Part003.HandleGetBalance s userID (some t) = (200, some r, s)) ∧
    (∀ t, (∀ r ∈ s.balances, Part003.asOfPred userID t r = false) →
      Part003.HandleGetBalance s userID (some t) = (404, none, s)) ∧
    (∀ r, s.balances.filter (isOpenFor userID) = [r] →
      Part003.HandleGetBalance s userID none = (200, some r, s)) ∧
    ((∀ r ∈ s.balances, isOpenFor userID r = false) →
      Part003.HandleGetBalance s userID none = (404, none, s)) ∧
    (∀ asOf, (Part003.HandleGetBalance s userID asOf).2.2 = s) := by
  refine ⟨?_, ?_, ?_, ?_, ?_⟩
  · intro t r hfil
    simp only [Part003.HandleGetBalance]
    rw [find?_of_filter_eq_singleton hfil]
  · intro t hnone
    simp only [Part003.HandleGetBalance]
    rw [List.find?_eq_none.mpr (fun x hx => by simp [hnone x hx])]
  · intro r hfil
    simp only [Part003.HandleGetBalance]
    rw [find?_of_filter_eq_singleton hfil]
  · intro hnone
    simp only [Part003.HandleGetBalance]
    rw [List.find?_eq_none.mpr (fun x hx => by simp [hnone x hx])]
  · intro asOf
    cases asOf with
    | none =>
      simp only [Part003.HandleGetBalance]
      cases hf : s.balances.find? (isOpenFor userID) with
      | none => rfl
      | some b => rfl
    | some t =>
      simp only [Part003.HandleGetBalance]
      cases hf : s.balances.find? (Part003.asOfPred userID t) with
      | none => rfl
      | some b => rfl

/-- C9 witness: on the seeded store, the as-of query at instant 150 returns
`user1`'s containing row with HTTP 200 and leaves the store unchanged. -/
theorem c9_get_balance_witness :
    Part003.HandleGetBalance seedStore "user1" (some 150)
      = (200, some ⟨"user1", "User 1", 1000, 100, foreverTs⟩, seedStore) :=
  (c9_get_balance seedStore "user1").1 150
    ⟨"user1", "User 1", 1000, 100, foreverTs⟩ (by decide)
